import Mathlib

/-!
Verification of the dv-plot pipeline (src/main.py).

The pipeline cleans a raw per-symbol price table, derives daily ("dv") and
intraday ("iv") volatility series, and bins them with mean/std-centered
histogram edges.  We embed the cleaning, derivation and binning logic
shallowly: pandas float cells are modelled by `FVal` (a finite rational,
plus the IEEE special values +inf, -inf and NaN; NaN doubles as the
"missing" marker exactly as in pandas), tables carry explicit
column-presence flags (accessing an absent column raises KeyError in
pandas, which the cleaner's try/except turns into a skip), and the purely
numeric statistics and bin-edge computations are carried out over ℚ, with
the standard deviation `s` characterised by `s * s = sampleVariance`
(pandas `.std()` is the nonnegative square root of the ddof=1 variance).
-/

/-- A pandas float cell: a finite rational, +inf, -inf, or NaN.
NaN is also pandas' missing-value marker. -/
inductive FVal where
  | fin (q : ℚ)
  | pinf
  | ninf
  | nan
deriving DecidableEq, Repr

/-- NaN test (pandas `isna`). -/
def FVal.isNan : FVal → Bool
  | .nan => true
  | _ => false

/-- Finiteness test: true only on finite rationals. -/
def FVal.isFinite : FVal → Bool
  | .fin _ => true
  | _ => false

/-- Infinity test. -/
def FVal.isInf : FVal → Bool
  | .pinf => true
  | .ninf => true
  | _ => false

/-- The float comparison `v > 0` (line 32 of main.py): NaN compares
false, +inf > 0 is true. -/
def FVal.gtZero : FVal → Bool
  | .fin q => decide (0 < q)
  | .pinf => true
  | .ninf => false
  | .nan => false

/-- IEEE-style subtraction, as used in the dv/iv formulas. -/
def FVal.sub : FVal → FVal → FVal
  | .nan, _ => .nan
  | _, .nan => .nan
  | .fin a, .fin b => .fin (a - b)
  | .fin _, .pinf => .ninf
  | .fin _, .ninf => .pinf
  | .pinf, .fin _ => .pinf
  | .ninf, .fin _ => .ninf
  | .pinf, .pinf => .nan
  | .pinf, .ninf => .pinf
  | .ninf, .pinf => .ninf
  | .ninf, .ninf => .nan

/-- IEEE-style division, as used in the dv/iv formulas. -/
def FVal.div : FVal → FVal → FVal
  | .nan, _ => .nan
  | _, .nan => .nan
  | .fin a, .fin b =>
      if b = 0 then (if a = 0 then .nan else if 0 < a then .pinf else .ninf)
      else .fin (a / b)
  | .fin _, .pinf => .fin 0
  | .fin _, .ninf => .fin 0
  | .pinf, .fin b => if 0 ≤ b then .pinf else .ninf
  | .ninf, .fin b => if 0 ≤ b then .ninf else .pinf
  | .pinf, .pinf => .nan
  | .pinf, .ninf => .nan
  | .ninf, .pinf => .nan
  | .ninf, .ninf => .nan

/-- Multiplication by the positive constant 100 (the `* 100` of the
volatility formulas). -/
def FVal.mul100 : FVal → FVal
  | .fin a => .fin (a * 100)
  | .pinf => .pinf
  | .ninf => .ninf
  | .nan => .nan

/-- A raw table cell before `pd.to_numeric`: either content that parses
to a float value (numbers, numeric strings, also "inf"/"nan" strings)
or content that does not parse. -/
inductive RawCell where
  | parsed (v : FVal)
  | unparseable
deriving DecidableEq, Repr

/-- `pd.to_numeric(col, errors="coerce")` on one cell (line 29):
unparseable content becomes NaN (missing), parseable content its value. -/
def RawCell.toNumeric : RawCell → FVal
  | .parsed v => v
  | .unparseable => .nan

/-- One raw row, restricted to the four price columns the script uses. -/
structure RawRow where
  close : RawCell
  prev : RawCell
  high : RawCell
  low : RawCell
deriving DecidableEq, Repr

/-- A raw table: presence flags for the four price columns
(`col in data.columns`) and the rows.  An absent column's cells are
never read: every access below is guarded by the flag, as in the code. -/
structure RawTable where
  hasClose : Bool
  hasPrev : Bool
  hasHigh : Bool
  hasLow : Bool
  rows : List RawRow
deriving DecidableEq, Repr

/-- A cleaned row: the four price cells after numeric coercion. -/
structure Row where
  close : FVal
  prev : FVal
  high : FVal
  low : FVal
deriving DecidableEq, Repr

/-- A cleaned table, with the same column-presence flags. -/
structure CleanTable where
  hasClose : Bool
  hasPrev : Bool
  hasHigh : Bool
  hasLow : Bool
  rows : List Row
deriving DecidableEq, Repr

/-- Coercion of a full row (lines 27-29 of main.py). -/
def coerceRow (r : RawRow) : Row :=
  ⟨r.close.toNumeric, r.prev.toNumeric, r.high.toNumeric, r.low.toNumeric⟩

/-- `fetch_and_clean_data` (lines 14-39), from the provider result on:
empty table → skip (None); coerce the present price columns; drop rows
with NaN previous close (line 31) -- if that column is absent pandas
raises KeyError, caught by the enclosing try/except, hence None; keep
rows with previous close > 0 (line 32); empty result → None. -/
def fetch_and_clean_data (raw : RawTable) : Option CleanTable :=
  if raw.rows.isEmpty then none
  else if raw.hasPrev then
    if (((raw.rows.map coerceRow).filter fun r => !r.prev.isNan).filter
        fun r => r.prev.gtZero).isEmpty then none
    else some ⟨raw.hasClose, raw.hasPrev, raw.hasHigh, raw.hasLow,
      ((raw.rows.map coerceRow).filter fun r => !r.prev.isNan).filter
        fun r => r.prev.gtZero⟩
  else none

/-- Arithmetic mean over ℚ (pandas `.mean()` on an all-finite column). -/
def mean (qs : List ℚ) : ℚ := qs.sum / qs.length

/-- The ddof=1 sample variance, the square of pandas `.std()`. -/
def sampleVariance (qs : List ℚ) : ℚ :=
  ((qs.map fun x => (x - mean qs) ^ 2).sum) / ((qs.length : ℚ) - 1)

/-- Minimum of a list (pandas `.min()`; the empty case never reached). -/
def listMin : List ℚ → ℚ
  | [] => 0
  | x :: xs => xs.foldl min x

/-- Maximum of a list (pandas `.max()`). -/
def listMax : List ℚ → ℚ
  | [] => 0
  | x :: xs => xs.foldl max x

/-- Python `int()` on a finite float: truncation toward zero. -/
def pyInt (x : ℚ) : ℤ := if 0 ≤ x then ⌊x⌋ else ⌈x⌉

/-- `n_std_left = abs(int((min_val - mean_val) / std_val)) + 1` (line 58). -/
def n_std_left (m s mn : ℚ) : ℤ := |pyInt ((mn - m) / s)| + 1

/-- `n_std_right = abs(int((max_val - mean_val) / std_val)) + 1` (line 59). -/
def n_std_right (m s mx : ℚ) : ℤ := |pyInt ((mx - m) / s)| + 1

/-- Python `range(a, b)` over ℤ. -/
def intRange (a b : ℤ) : List ℤ :=
  (List.range (b - a).toNat).map fun (j : ℕ) => a + (j : ℤ)

/-- `bins = [mean_val + (i * std_val) for i in range(-n_std_left,
n_std_right + 1)]` (line 62), with `l`/`r` the two step counts. -/
def bins (m s : ℚ) (l r : ℤ) : List ℚ :=
  (intRange (-l) (r + 1)).map fun (i : ℤ) => m + (i : ℚ) * s

/-- What `plot_volatility_histogram` does, control-flow-wise. -/
inductive PlotOutcome where
  /-- The early return of lines 44-46: no statistics, no file written. -/
  | skipped
  /-- An uncaught exception escapes the function (only `savefig` is
  inside a try).  Concretely: `int()` on a NaN or infinite float at
  lines 58-59 raises. -/
  | raised
  /-- The histogram is drawn and handed to `savefig`. -/
  | rendered
deriving DecidableEq, Repr

/-- The finite values of a column. -/
def FVal.toRat? : FVal → Option ℚ
  | .fin q => some q
  | _ => none

/-- `plot_volatility_histogram` (lines 43-102) on the metric column:
`hasCol` is `col in data.columns`; skip if the column is absent or all
NaN (line 44); otherwise pandas computes the NaN-skipping statistics.
If any value is infinite the std is NaN and `int(NaN)` raises; with
fewer than two finite values the ddof=1 std is NaN, same raise; with
zero variance `(min-mean)/std = 0.0/0.0 = NaN`, same raise.  Otherwise
std > 0, the step counts and bin edges are computed and the plot is
rendered. -/
def plot_volatility_histogram (hasCol : Bool) (vals : List FVal) : PlotOutcome :=
  if !hasCol then .skipped
  else if (vals.filter fun v => !v.isNan).isEmpty then .skipped
  else if (vals.filter fun v => !v.isNan).any FVal.isInf then .raised
  else if ((vals.filter fun v => !v.isNan).filterMap FVal.toRat?).length < 2 then .raised
  else if sampleVariance ((vals.filter fun v => !v.isNan).filterMap FVal.toRat?) = 0 then .raised
  else .rendered

/-- `dv` (lines 120-123): `(close - prev) / prev * 100` in float
arithmetic. -/
def dv (r : Row) : FVal := ((r.close.sub r.prev).div r.prev).mul100

/-- `iv` (lines 159-162): `(high - low) / prev * 100` in float
arithmetic. -/
def iv (r : Row) : FVal := ((r.high.sub r.low).div r.prev).mul100

/-- The daily volatility series the script retains after
`dropna(subset=["dv"])` (line 124). -/
def dvSeries (t : CleanTable) : List FVal :=
  (t.rows.filter fun r => !(dv r).isNan).map dv

/-- The intraday volatility series retained after
`dropna(subset=["iv"])` (line 163). -/
def ivSeries (t : CleanTable) : List FVal :=
  (t.rows.filter fun r => !(iv r).isNan).map iv

/-- `calculate_and_plot_daily_volatility` (lines 105-138): check the two
required columns (line 114, early return); assign the dv column and drop
its NaN rows IN PLACE (lines 120-124) -- the caller's table is mutated;
early return if nothing remains (line 125); else plot.  Returns the plot
outcome (`none` for the early returns) together with the table as the
caller sees it afterwards. -/
def calculate_and_plot_daily_volatility (t : CleanTable) :
    Option PlotOutcome × CleanTable :=
  if t.hasClose && t.hasPrev then
    if (t.rows.filter fun r => !(dv r).isNan).isEmpty then
      (none, { t with rows := t.rows.filter fun r => !(dv r).isNan })
    else
      (some (plot_volatility_histogram true
          ((t.rows.filter fun r => !(dv r).isNan).map dv)),
        { t with rows := t.rows.filter fun r => !(dv r).isNan })
  else (none, t)

/-- `calculate_and_plot_intra_volatility` (lines 141-177), analogous. -/
def calculate_and_plot_intra_volatility (t : CleanTable) :
    Option PlotOutcome × CleanTable :=
  if t.hasHigh && t.hasLow && t.hasPrev then
    if (t.rows.filter fun r => !(iv r).isNan).isEmpty then
      (none, { t with rows := t.rows.filter fun r => !(iv r).isNan })
    else
      (some (plot_volatility_histogram true
          ((t.rows.filter fun r => !(iv r).isNan).map iv)),
        { t with rows := t.rows.filter fun r => !(iv r).isNan })
  else (none, t)

/-- Outcome of one iteration of the per-symbol loop in `main`
(lines 201-223). -/
inductive RunResult where
  /-- The iteration ends and the loop advances to the next symbol. -/
  | completed
  /-- An exception escapes the iteration: the loop body has no
  try/except, so the whole run aborts. -/
  | crashed
deriving DecidableEq, Repr

/-- One iteration of the per-symbol loop: clean (failures there are
caught inside `fetch_and_clean_data` and yield a skip), then the daily
step, then the intraday step on the table the daily step left behind.
A `raised` plot outcome is an uncaught exception and crashes the run. -/
def symbolIteration (raw : RawTable) : RunResult :=
  match fetch_and_clean_data raw with
  | none => .completed
  | some t =>
    match calculate_and_plot_daily_volatility t with
    | (some .raised, _) => .crashed
    | (_, t2) =>
      match calculate_and_plot_intra_volatility t2 with
      | (some .raised, _) => .crashed
      | _ => .completed

/-! ## Concrete tables used by the scenario claims and counterexamples -/

/-- A raw cell holding a plain finite number. -/
def goodCell (q : ℚ) : RawCell := RawCell.parsed (FVal.fin q)

/-- Four identical rows with close 101 and previous close 100: the
daily volatility series is the constant [1, 1, 1, 1] of the spec's
zero-variance scenario. -/
def rawC1 : RawTable :=
  ⟨true, true, true, true,
    List.replicate 4 ⟨goodCell 101, goodCell 100, goodCell 1, goodCell 1⟩⟩

/-- Row 1 of the 252-row scenario: close 100, previous close 100. -/
def scenarioRow1 : RawRow := ⟨goodCell 100, goodCell 100, goodCell 1, goodCell 1⟩

/-- Row 2 of the 252-row scenario: close 105, previous close 100. -/
def scenarioRow2 : RawRow := ⟨goodCell 105, goodCell 100, goodCell 1, goodCell 1⟩

/-- The remaining 250 scenario rows: previous close is NaN. -/
def scenarioBadRow : RawRow := ⟨goodCell 100, RawCell.parsed FVal.nan, goodCell 1, goodCell 1⟩

/-- The 252-row raw table of the spec's cleaning scenario. -/
def scenarioTable : RawTable :=
  ⟨true, true, true, true, scenarioRow1 :: scenarioRow2 :: List.replicate 250 scenarioBadRow⟩

/-- Two rows, the second with an unparseable close cell: its dv is NaN,
so the daily step drops it from the shared table before intraday runs. -/
def rawOrder : RawTable :=
  ⟨true, true, true, true,
    [⟨goodCell 105, goodCell 100, goodCell 110, goodCell 95⟩,
     ⟨RawCell.unparseable, goodCell 100, goodCell 108, goodCell 99⟩]⟩

/-- One row whose close cell is unparseable (→ NaN) but whose previous
close is a valid 100: cleaning keeps it. -/
def rawNanClose : RawTable :=
  ⟨true, true, true, true, [⟨RawCell.unparseable, goodCell 100, goodCell 10, goodCell 5⟩]⟩

/-- A table lacking the closing-price column but with a valid previous
close. -/
def rawNoCloseCol : RawTable :=
  ⟨false, true, true, true, [⟨RawCell.unparseable, goodCell 100, goodCell 10, goodCell 5⟩]⟩

/-- A table lacking the previous-closing-price column. -/
def rawNoPrevCol : RawTable :=
  ⟨true, false, true, true, [⟨goodCell 100, goodCell 100, goodCell 10, goodCell 5⟩]⟩

/-- One row whose close cell parses to +inf (e.g. the string "inf"
under `pd.to_numeric`) with a valid previous close. -/
def rawInfClose : RawTable :=
  ⟨true, true, true, true, [⟨RawCell.parsed FVal.pinf, goodCell 100, goodCell 10, goodCell 5⟩]⟩

/-- A fully numeric one-row raw table. -/
def rawGood : RawTable :=
  ⟨true, true, true, true, [⟨goodCell 101, goodCell 100, goodCell 102, goodCell 99⟩]⟩

/-- The cleaned table `fetch_and_clean_data rawGood` returns. -/
def cleanGood : CleanTable :=
  ⟨true, true, true, true, [⟨FVal.fin 101, FVal.fin 100, FVal.fin 102, FVal.fin 99⟩]⟩

/-! ## Helper lemmas -/

/-- The rows of a successfully cleaned table are exactly the coerced
raw rows surviving the NaN drop and the positivity filter. -/
theorem clean_rows_eq (raw : RawTable) (t : CleanTable)
    (h : fetch_and_clean_data raw = some t) :
    t.rows = ((raw.rows.map coerceRow).filter fun r => !r.prev.isNan).filter
      fun r => r.prev.gtZero := by
  unfold fetch_and_clean_data at h
  split at h
  · exact Option.noConfusion h
  · split at h
    · split at h
      · exact Option.noConfusion h
      · cases h
        rfl
    · exact Option.noConfusion h

/-- Python `int()` truncates toward zero, so its absolute value is the
floor of the absolute value. -/
theorem abs_pyInt (x : ℚ) : |pyInt x| = ⌊|x|⌋ := by
  unfold pyInt
  split
  · next h =>
    rw [abs_of_nonneg h, abs_of_nonneg (Int.floor_nonneg.mpr h)]
  · next h =>
    push_neg at h
    have hc : ⌈x⌉ ≤ 0 := Int.ceil_le.mpr (by exact_mod_cast h.le)
    rw [abs_of_neg h, abs_of_nonpos hc, ← Int.floor_neg]

/-- Membership in the Python-style integer range. -/
theorem mem_intRange (a b i : ℤ) : i ∈ intRange a b ↔ a ≤ i ∧ i < b := by
  unfold intRange
  simp only [List.mem_map, List.mem_range]
  constructor
  · rintro ⟨j, hj, rfl⟩
    omega
  · rintro ⟨h1, h2⟩
    exact ⟨(i - a).toNat, by omega, by omega⟩

/-- A nonempty integer range starts at its lower bound. -/
theorem intRange_head (a b : ℤ) (h : a < b) : (intRange a b).head? = some a := by
  unfold intRange
  have hn : (b - a).toNat = (b - a - 1).toNat + 1 := by omega
  rw [hn, List.range_succ_eq_map]
  simp

/-- A nonempty integer range ends just below its upper bound. -/
theorem intRange_getLast (a b : ℤ) (h : a < b) :
    (intRange a b).getLast? = some (b - 1) := by
  unfold intRange
  have hn : (b - a).toNat = (b - a - 1).toNat + 1 := by omega
  rw [hn]
  rw [show List.range ((b - a - 1).toNat + 1)
      = List.range ((b - a - 1).toNat) ++ [(b - a - 1).toNat] from List.range_succ ..]
  rw [List.map_append]
  simp only [List.map_cons, List.map_nil]
  rw [List.getLast?_concat]
  congr 1
  omega

/-- An integer range is strictly increasing. -/
theorem intRange_pairwise (a b : ℤ) : (intRange a b).Pairwise (· < ·) := by
  unfold intRange
  exact (List.pairwise_lt_range _).map _ (by intro i j hij; omega)

/-- The left step count is at least one. -/
theorem one_le_n_std_left (m s mn : ℚ) : 1 ≤ n_std_left m s mn := by
  unfold n_std_left
  have := abs_nonneg (pyInt ((mn - m) / s))
  omega

/-- The right step count is at least one. -/
theorem one_le_n_std_right (m s mx : ℚ) : 1 ≤ n_std_right m s mx := by
  unfold n_std_right
  have := abs_nonneg (pyInt ((mx - m) / s))
  omega

/-- With a positive std the bin edges are strictly increasing. -/
theorem bins_pairwise (m s : ℚ) (l r : ℤ) (hs : 0 < s) :
    (bins m s l r).Pairwise (· < ·) := by
  unfold bins
  refine (intRange_pairwise _ _).map _ ?_
  intro i j hij
  have hq : (i : ℚ) < (j : ℚ) := by exact_mod_cast hij
  have := mul_lt_mul_of_pos_right hq hs
  linarith

/-- The bin edges are exactly the values `m + i·s` for `i ∈ [-l, r]`. -/
theorem mem_bins (m s : ℚ) (l r : ℤ) (e : ℚ) :
    e ∈ bins m s l r ↔ ∃ i : ℤ, -l ≤ i ∧ i < r + 1 ∧ e = m + (i : ℚ) * s := by
  unfold bins
  simp only [List.mem_map, mem_intRange]
  constructor
  · rintro ⟨i, ⟨h1, h2⟩, rfl⟩
    exact ⟨i, h1, h2, rfl⟩
  · rintro ⟨i, h1, h2, rfl⟩
    exact ⟨i, ⟨h1, h2⟩, rfl⟩

/-- The first bin edge is `m - l·s`. -/
theorem bins_head (m s : ℚ) (l r : ℤ) (h : -l < r + 1) :
    (bins m s l r).head? = some (m + ((-l : ℤ) : ℚ) * s) := by
  unfold bins
  rw [List.head?_map, intRange_head _ _ h]
  rfl

/-- The last bin edge is `m + r·s`. -/
theorem bins_getLast (m s : ℚ) (l r : ℤ) (h : -l < r + 1) :
    (bins m s l r).getLast? = some (m + (r : ℚ) * s) := by
  unfold bins
  rw [List.getLast?_map, intRange_getLast _ _ h]
  simp

/-- The left step count overshoots the minimum: `m - l·s < mn`. -/
theorem left_edge_lt_min (m s mn : ℚ) (hs : 0 < s) :
    m - (n_std_left m s mn : ℚ) * s < mn := by
  have h1 : ((n_std_left m s mn : ℤ) : ℚ) = ((⌊|mn - m| / s⌋ : ℤ) : ℚ) + 1 := by
    unfold n_std_left
    rw [abs_pyInt, abs_div, abs_of_pos hs]
    push_cast
    ring
  have h2 : |mn - m| / s < ((n_std_left m s mn : ℤ) : ℚ) := by
    rw [h1]
    exact Int.lt_floor_add_one _
  have h3 : |mn - m| < (n_std_left m s mn : ℚ) * s := (div_lt_iff₀ hs).mp h2
  have h4 : m - mn ≤ |mn - m| := by
    rw [abs_sub_comm]
    exact le_abs_self _
  linarith

/-- The right step count overshoots the maximum: `mx < m + r·s`. -/
theorem max_lt_right_edge (m s mx : ℚ) (hs : 0 < s) :
    mx < m + (n_std_right m s mx : ℚ) * s := by
  have h1 : ((n_std_right m s mx : ℤ) : ℚ) = ((⌊|mx - m| / s⌋ : ℤ) : ℚ) + 1 := by
    unfold n_std_right
    rw [abs_pyInt, abs_div, abs_of_pos hs]
    push_cast
    ring
  have h2 : |mx - m| / s < ((n_std_right m s mx : ℤ) : ℚ) := by
    rw [h1]
    exact Int.lt_floor_add_one _
  have h3 : |mx - m| < (n_std_right m s mx : ℚ) * s := (div_lt_iff₀ hs).mp h2
  have h4 : mx - m ≤ |mx - m| := le_abs_self _
  linarith

/-! ## The claims -/
/-- Claim C1 (code bug): on the zero-variance series [1,1,1,1] the
binning step does not signal a degenerate distribution and skip the
metric; it computes `std = 0`, `(min - mean)/std = NaN`, and `int(NaN)`
raises an uncaught ValueError, which propagates past the per-symbol
loop iteration and aborts the run. -/
theorem claim_C1_zero_variance_crashes :
    plot_volatility_histogram true [FVal.fin 1, FVal.fin 1, FVal.fin 1, FVal.fin 1]
      = PlotOutcome.raised
    ∧ symbolIteration rawC1 = RunResult.crashed := by
  with_unfolding_all decide

/-- Claim C2: every row of a table returned by the data cleaner has a
strictly positive previous closing price (in float order, so NaN and
nonpositive values are excluded). -/
theorem claim_C2_prev_close_positive (raw : RawTable) (t : CleanTable)
    (h : fetch_and_clean_data raw = some t) :
    ∀ r ∈ t.rows, r.prev.gtZero = true := by
  intro r hr
  rw [clean_rows_eq raw t h] at hr
  exact (List.mem_filter.mp hr).2

theorem claim_C2_witness :
    (Row.mk (FVal.fin 101) (FVal.fin 100) (FVal.fin 102) (FVal.fin 99)).prev.gtZero = true :=
  claim_C2_prev_close_positive rawGood cleanGood (by with_unfolding_all decide) _
    (by with_unfolding_all decide)

/-- Claim C3 counterexample: the daily step drops the row with a NaN dv
from the shared table in place, so the intraday series derived after the
daily step ran ([15]) differs from the intraday series derived alone
([15, 9]). -/
theorem claim_C3_counterexample :
    ((fetch_and_clean_data rawOrder).map fun t =>
      (ivSeries (calculate_and_plot_daily_volatility t).2, ivSeries t))
      = some ([FVal.fin 15], [FVal.fin 15, FVal.fin 9])
    ∧ ([FVal.fin 15] : List FVal) ≠ [FVal.fin 15, FVal.fin 9] := by
  with_unfolding_all decide

/-- Claim C3 (amended): the daily step mutates the shared table, so
order-insensitivity only holds when it drops no row: if every row's dv
is non-NaN, the intraday series derived after the daily step equals the
intraday series derived alone. -/
theorem claim_C3_amended (t : CleanTable)
    (h : ∀ r ∈ t.rows, (dv r).isNan = false) :
    ivSeries (calculate_and_plot_daily_volatility t).2 = ivSeries t := by
  have hf : (t.rows.filter fun r => !(dv r).isNan) = t.rows := by
    rw [List.filter_eq_self]
    intro r hr
    simp [h r hr]
  have ht : ({ t with rows := t.rows.filter fun r => !(dv r).isNan } : CleanTable) = t := by
    rw [hf]
  unfold calculate_and_plot_daily_volatility
  split
  · split
    · simpa using congrArg ivSeries ht
    · simpa using congrArg ivSeries ht
  · rfl

theorem claim_C3_witness :
    ivSeries (calculate_and_plot_daily_volatility cleanGood).2 = ivSeries cleanGood :=
  claim_C3_amended cleanGood (by with_unfolding_all decide)

/-- Claim C4 counterexample: a row with an unparseable close cell and a
valid previous close survives cleaning, so the returned table has a NaN
in the coerced closing-price column. -/
theorem claim_C4_counterexample :
    ((fetch_and_clean_data rawNanClose).map fun t => t.rows.map fun r => r.close.isNan)
      = some [true] := by
  with_unfolding_all decide

/-- Claim C4 (amended): the cleaner's returned table is NaN-free in the
previous-closing-price column only; the other coerced columns may keep
missing values. -/
theorem claim_C4_amended (raw : RawTable) (t : CleanTable)
    (h : fetch_and_clean_data raw = some t) :
    ∀ r ∈ t.rows, r.prev.isNan = false := by
  intro r hr
  rw [clean_rows_eq raw t h] at hr
  have := (List.mem_filter.mp (List.mem_filter.mp hr).1).2
  simpa using this

theorem claim_C4_witness :
    (Row.mk (FVal.fin 101) (FVal.fin 100) (FVal.fin 102) (FVal.fin 99)).prev.isNan = false :=
  claim_C4_amended rawGood cleanGood (by with_unfolding_all decide) _
    (by with_unfolding_all decide)

/-- Claim C5 counterexample: a raw table lacking the closing-price
column (a required column) but holding a valid previous close is NOT
rejected: the cleaner returns a cleaned table. -/
theorem claim_C5_counterexample :
    rawNoCloseCol.hasClose = false ∧ fetch_and_clean_data rawNoCloseCol ≠ none := by
  with_unfolding_all decide

/-- Claim C5 (amended): the cleaner rejects a table (returns the NoData
signal, never raising — the whole body is inside try/except) only for
the previous-closing-price column: if that column is missing, no
cleaned table is returned.  Tables missing other required columns can
still be returned; the per-metric derivation steps skip them later. -/
theorem claim_C5_amended (raw : RawTable) (h : raw.hasPrev = false) :
    fetch_and_clean_data raw = none := by
  unfold fetch_and_clean_data
  simp [h]

theorem claim_C5_witness : fetch_and_clean_data rawNoPrevCol = none :=
  claim_C5_amended rawNoPrevCol rfl

/-- Claim C6 counterexample: a close cell parsing to +inf survives
cleaning (only the previous close is filtered), the derived dv is +inf,
and `dropna` does not drop it: a non-finite value is retained in the
daily series after the drop step. -/
theorem claim_C6_counterexample :
    ((fetch_and_clean_data rawInfClose).map dvSeries) = some [FVal.pinf]
    ∧ FVal.pinf.isFinite = false := by
  with_unfolding_all decide

/-- Claim C6 (amended): the drop step removes exactly the NaN values:
every value retained in a derived daily or intraday series is non-NaN,
but infinities are not dropped. -/
theorem claim_C6_amended (t : CleanTable) :
    (∀ v ∈ dvSeries t, v.isNan = false) ∧ (∀ v ∈ ivSeries t, v.isNan = false) := by
  constructor
  · intro v hv
    obtain ⟨r, hr, rfl⟩ := List.mem_map.mp hv
    simpa using (List.mem_filter.mp hr).2
  · intro v hv
    obtain ⟨r, hr, rfl⟩ := List.mem_map.mp hv
    simpa using (List.mem_filter.mp hr).2

theorem claim_C6_witness : (FVal.fin 1).isNan = false :=
  (claim_C6_amended cleanGood).1 (FVal.fin 1) (by with_unfolding_all decide)

/-- Claim C7: the step counts computed by lines 58-59 agree with the
spec's formulas `floor(|min − m| / s) + 1` and
`floor(|max − m| / s) + 1`, for any series whose standard deviation is
the positive rational s (characterised by `s · s = sampleVariance`). -/
theorem claim_C7_step_counts (qs : List ℚ) (s : ℚ) (hne : qs ≠ []) (hs : 0 < s)
    (hvar : s * s = sampleVariance qs) :
    n_std_left (mean qs) s (listMin qs) = ⌊|listMin qs - mean qs| / s⌋ + 1
    ∧ n_std_right (mean qs) s (listMax qs) = ⌊|listMax qs - mean qs| / s⌋ + 1 := by
  constructor
  · unfold n_std_left
    rw [abs_pyInt, abs_div, abs_of_pos hs]
  · unfold n_std_right
    rw [abs_pyInt, abs_div, abs_of_pos hs]

theorem claim_C7_witness :
    ([0, 1, 2] : List ℚ) ≠ [] ∧ (0 : ℚ) < 1 ∧ (1 : ℚ) * 1 = sampleVariance [0, 1, 2]
    ∧ (n_std_left (mean [0, 1, 2]) 1 (listMin [0, 1, 2])
        = ⌊|listMin [0, 1, 2] - mean [0, 1, 2]| / 1⌋ + 1
      ∧ n_std_right (mean [0, 1, 2]) 1 (listMax [0, 1, 2])
        = ⌊|listMax [0, 1, 2] - mean [0, 1, 2]| / 1⌋ + 1) :=
  ⟨by simp, by norm_num, by with_unfolding_all decide,
    claim_C7_step_counts [0, 1, 2] 1 (by simp) (by norm_num) (by with_unfolding_all decide)⟩

/-- Claim C8: for a series with positive standard deviation s, the
Policy B bin edges are strictly increasing, each edge is
`mean + k·std` for an integer k, the first edge is `mean − leftSteps·s`
and lies strictly below the minimum, and the last edge is
`mean + rightSteps·s` and lies strictly above the maximum. -/
theorem claim_C8_policy_b_edges (qs : List ℚ) (s : ℚ) (hne : qs ≠ []) (hs : 0 < s)
    (hvar : s * s = sampleVariance qs) :
    (bins (mean qs) s (n_std_left (mean qs) s (listMin qs))
        (n_std_right (mean qs) s (listMax qs))).Pairwise (· < ·)
    ∧ (∀ e ∈ bins (mean qs) s (n_std_left (mean qs) s (listMin qs))
        (n_std_right (mean qs) s (listMax qs)), ∃ k : ℤ, e = mean qs + (k : ℚ) * s)
    ∧ (bins (mean qs) s (n_std_left (mean qs) s (listMin qs))
        (n_std_right (mean qs) s (listMax qs))).head?
      = some (mean qs - (n_std_left (mean qs) s (listMin qs) : ℚ) * s)
    ∧ (bins (mean qs) s (n_std_left (mean qs) s (listMin qs))
        (n_std_right (mean qs) s (listMax qs))).getLast?
      = some (mean qs + (n_std_right (mean qs) s (listMax qs) : ℚ) * s)
    ∧ mean qs - (n_std_left (mean qs) s (listMin qs) : ℚ) * s < listMin qs
    ∧ listMax qs < mean qs + (n_std_right (mean qs) s (listMax qs) : ℚ) * s := by
  have hL := one_le_n_std_left (mean qs) s (listMin qs)
  have hR := one_le_n_std_right (mean qs) s (listMax qs)
  have hlt : -(n_std_left (mean qs) s (listMin qs))
      < n_std_right (mean qs) s (listMax qs) + 1 := by omega
  refine ⟨bins_pairwise _ _ _ _ hs, ?_, ?_, bins_getLast _ _ _ _ hlt,
    left_edge_lt_min _ _ _ hs, max_lt_right_edge _ _ _ hs⟩
  · intro e he
    obtain ⟨i, _, _, rfl⟩ := (mem_bins _ _ _ _ e).mp he
    exact ⟨i, rfl⟩
  · rw [bins_head _ _ _ _ hlt]
    congr 1
    push_cast
    ring

theorem claim_C8_witness :
    (bins (mean [0, 1, 2]) 1 (n_std_left (mean [0, 1, 2]) 1 (listMin [0, 1, 2]))
        (n_std_right (mean [0, 1, 2]) 1 (listMax [0, 1, 2]))).Pairwise (· < ·)
    ∧ (∀ e ∈ bins (mean [0, 1, 2]) 1 (n_std_left (mean [0, 1, 2]) 1 (listMin [0, 1, 2]))
        (n_std_right (mean [0, 1, 2]) 1 (listMax [0, 1, 2])),
        ∃ k : ℤ, e = mean [0, 1, 2] + (k : ℚ) * 1)
    ∧ (bins (mean [0, 1, 2]) 1 (n_std_left (mean [0, 1, 2]) 1 (listMin [0, 1, 2]))
        (n_std_right (mean [0, 1, 2]) 1 (listMax [0, 1, 2]))).head?
      = some (mean [0, 1, 2] - (n_std_left (mean [0, 1, 2]) 1 (listMin [0, 1, 2]) : ℚ) * 1)
    ∧ (bins (mean [0, 1, 2]) 1 (n_std_left (mean [0, 1, 2]) 1 (listMin [0, 1, 2]))
        (n_std_right (mean [0, 1, 2]) 1 (listMax [0, 1, 2]))).getLast?
      = some (mean [0, 1, 2] + (n_std_right (mean [0, 1, 2]) 1 (listMax [0, 1, 2]) : ℚ) * 1)
    ∧ mean [0, 1, 2] - (n_std_left (mean [0, 1, 2]) 1 (listMin [0, 1, 2]) : ℚ) * 1 < listMin [0, 1, 2]
    ∧ listMax [0, 1, 2] < mean [0, 1, 2] + (n_std_right (mean [0, 1, 2]) 1 (listMax [0, 1, 2]) : ℚ) * 1 :=
  claim_C8_policy_b_edges [0, 1, 2] 1 (by simp) (by norm_num) (by with_unfolding_all decide)

/-- Claim C9: on the 252-row scenario table (row 1: close 100 and
previous close 100; row 2: close 105 and previous close 100; 250 rows
of NaN previous close) the cleaner keeps exactly 2 rows and the daily
derivation yields the series [0.0, 5.0]. -/
theorem claim_C9_scenario :
    (fetch_and_clean_data scenarioTable).map (fun t => (t.rows.length, dvSeries t))
      = some (2, [FVal.fin 0, FVal.fin 5]) := by
  with_unfolding_all decide

/-- Claim C10: if the metric column is absent, or every value in it is
missing, the histogram step returns at its first guard: no statistics
and no rendering. -/
theorem claim_C10_absent_or_all_missing_skips (hasCol : Bool) (vals : List FVal)
    (h : hasCol = false ∨ ∀ v ∈ vals, v.isNan = true) :
    plot_volatility_histogram hasCol vals = PlotOutcome.skipped := by
  rcases h with h | h
  · simp [plot_volatility_histogram, h]
  · have hf : vals.filter (fun v => !v.isNan) = [] := by
      rw [List.filter_eq_nil_iff]
      intro v hv
      simp [h v hv]
    simp [plot_volatility_histogram, hf]

theorem claim_C10_witness :
    plot_volatility_histogram false [FVal.fin 1] = PlotOutcome.skipped
    ∧ plot_volatility_histogram true [FVal.nan, FVal.nan] = PlotOutcome.skipped :=
  ⟨claim_C10_absent_or_all_missing_skips false [FVal.fin 1] (Or.inl rfl),
    claim_C10_absent_or_all_missing_skips true [FVal.nan, FVal.nan]
      (Or.inr (by with_unfolding_all decide))⟩
